import Mathlib

/-!
Shallow embedding of the credit-ledger core of the photo-portrait bot
(`src/app/database/crud.py` together with the table declarations of
`src/app/database/models.py`).  The persistent database is modelled as an
explicit state value (`DB`); each CRUD coroutine becomes a pure function
from a `DB` (plus its arguments) to a new `DB` and its return value.
Commit-time integrity constraints declared on the tables (foreign keys,
unique columns) are part of the model where an operation can hit them.
-/

namespace PortraitBot

/-- A row of the `users` table (`models.py`): the fields the credit core
reads or writes.  `free_images_left` is a Python `int`, so `Int` here. -/
structure User where
  id : Nat
  telegram_id : Nat
  free_images_left : Int
  total_images_processed : Nat
  referred_by_id : Option Nat
  referral_code : Option String
  total_referrals : Nat
  deriving Repr, DecidableEq

/-- A row of the `packages` table. Prices are `Numeric(10,2)`; they are
carried opaquely (in kopecks) since no claim computes with them. -/
structure Package where
  id : Nat
  name : String
  images_count : Nat
  price_rub : Int
  is_active : Bool
  deriving Repr, DecidableEq

/-- A row of the `orders` table.  `invoice_id` is nullable and unique. -/
structure Order where
  id : Nat
  user_id : Nat
  package_id : Nat
  invoice_id : Option String
  amount : Int
  status : String
  paid_at : Option Nat
  deriving Repr, DecidableEq

/-- A row of the `processed_images` table (the consumption records). -/
structure ProcessedImage where
  id : Nat
  user_id : Nat
  order_id : Option Nat
  is_free : Bool
  deriving Repr, DecidableEq

/-- A row of the `referral_rewards` table (append-only audit trail). -/
structure ReferralReward where
  user_id : Nat
  referred_user_id : Nat
  order_id : Option Nat
  reward_type : String
  images_rewarded : Nat
  deriving Repr, DecidableEq

/-- The database state: the five tables the credit core touches, plus the
id sequences used when inserting new rows. -/
structure DB where
  users : List User
  packages : List Package
  orders : List Order
  images : List ProcessedImage
  rewards : List ReferralReward
  nextPackageId : Nat
  nextOrderId : Nat
  deriving Repr, DecidableEq

/-- Constant `settings.REFERRAL_REWARD_PURCHASE_PERCENT` (`config.py`, default 10). -/
def REFERRAL_REWARD_PURCHASE_PERCENT : Nat := 10

/-- In-place mutation of the single ORM object returned by a `select`:
update the first list element satisfying `p`. -/
def updateFirst (p : α → Bool) (f : α → α) : List α → List α
  | [] => []
  | x :: xs => if p x then f x :: xs else x :: updateFirst p f xs

/-- Lookup `SELECT ... WHERE User.telegram_id == tid`, `scalar_one_or_none`. -/
def findUserByTid (db : DB) (tid : Nat) : Option User :=
  db.users.find? (fun u => u.telegram_id == tid)

/-- Lookup `SELECT ... WHERE User.id == uid`, `scalar_one_or_none`. -/
def findUserById (db : DB) (uid : Nat) : Option User :=
  db.users.find? (fun u => u.id == uid)

/-- Lookup `SELECT ... WHERE Package.id == pid`. -/
def findPackageById (db : DB) (pid : Nat) : Option Package :=
  db.packages.find? (fun p => p.id == pid)

/-- The paid-credit aggregation in `get_user_balance` /
`check_and_reserve_balance`:
`SUM(Package.images_count) JOIN Order ON Order.package_id == Package.id
WHERE Order.user_id == uid AND Order.status == "paid"`. -/
def paidTotal (db : DB) (uid : Nat) : Int :=
  (db.orders.filter (fun o => o.user_id == uid && o.status == "paid")).foldl
    (fun acc o =>
      acc + (match findPackageById db o.package_id with
             | some p => (p.images_count : Int)
             | none => 0)) 0

/-- Aggregation `COUNT(ProcessedImage.id) WHERE user_id == uid AND is_free == False`. -/
def usedPaid (db : DB) (uid : Nat) : Int :=
  ((db.images.filter (fun i => i.user_id == uid && i.is_free == false)).length : Int)

/-- The dict returned by `get_user_balance`. -/
structure Balance where
  free : Int
  paid : Int
  total : Int
  deriving Repr, DecidableEq

/-- Function `get_user_balance` (`crud.py` 104–135): unknown user gives all zeros;
otherwise paid is floored at zero and total is the sum. -/
def get_user_balance (db : DB) (tid : Nat) : Balance :=
  match findUserByTid db tid with
  | none => ⟨0, 0, 0⟩
  | some u =>
    let paid_left := max 0 (paidTotal db u.id - usedPaid db u.id)
    ⟨u.free_images_left, paid_left, u.free_images_left + paid_left⟩

/-- Mutation `user.free_images_left -= 1` on the row selected by
`telegram_id` (the `FOR UPDATE` select returns one row; the first match
in the list model). -/
def decFreeFirst (users : List User) (tid : Nat) : List User :=
  updateFirst (fun v => v.telegram_id == tid)
    (fun v => { v with free_images_left := v.free_images_left - 1 }) users

/-- Mutation `user.free_images_left += 1` on the row selected by
`telegram_id`. -/
def incFreeFirst (users : List User) (tid : Nat) : List User :=
  updateFirst (fun v => v.telegram_id == tid)
    (fun v => { v with free_images_left := v.free_images_left + 1 }) users

/-- Function `check_and_reserve_balance` (`crud.py` 161–216): returns the new
database state together with `(success, is_free)`. -/
def check_and_reserve_balance (db : DB) (tid : Nat) : DB × Bool × Bool :=
  match findUserByTid db tid with
  | none => (db, false, false)
  | some u =>
    if u.free_images_left > 0 then
      ({ db with users := decFreeFirst db.users tid }, true, true)
    else
      let paid_left := paidTotal db u.id - usedPaid db u.id
      if paid_left > 0 then (db, true, false)
      else (db, false, false)

/-- Function `rollback_balance` (`crud.py` 219–241): a paid reservation rolls back
to nothing; a free one re-increments `free_images_left`. -/
def rollback_balance (db : DB) (tid : Nat) (is_free : Bool) : DB :=
  if !is_free then db
  else
    match findUserByTid db tid with
    | none => db
    | some _ => { db with users := incFreeFirst db.users tid }

/-- Function `create_order` (`crud.py` 351–374).  The explicit check raises
`ValueError("User not found")` for an unknown user; the commit then runs
into the constraints declared in `models.py`: `package_id` is a foreign
key into `packages`, and `invoice_id` is unique, so an unknown package or
a reused invoice id aborts the insert with an integrity error. -/
def create_order (db : DB) (tid : Nat) (package_id : Nat) (invoice_id : String)
    (amount : Int) : Except String (DB × Order) :=
  match findUserByTid db tid with
  | none => .error "User not found"
  | some u =>
    if (findPackageById db package_id).isNone then
      .error "IntegrityError: foreign key packages.id"
    else if db.orders.any (fun o => o.invoice_id == some invoice_id) then
      .error "IntegrityError: unique orders.invoice_id"
    else
      let o : Order :=
        { id := db.nextOrderId, user_id := u.id, package_id := package_id,
          invoice_id := some invoice_id, amount := amount, status := "pending",
          paid_at := none }
      .ok ({ db with orders := db.orders ++ [o], nextOrderId := db.nextOrderId + 1 }, o)

/-- Function `get_order_by_invoice_id` (`crud.py` 377–382). -/
def get_order_by_invoice_id (db : DB) (invoice_id : String) : Option Order :=
  db.orders.find? (fun o => o.invoice_id == some invoice_id)

/-- The SQL `UPDATE users SET free_images_left = free_images_left + n
WHERE id == user_id` issued by `add_referral_reward`: every matching row
is incremented. -/
def creditFreeAll (users : List User) (user_id : Nat) (n : Nat) : List User :=
  users.map (fun v =>
    if v.id == user_id then { v with free_images_left := v.free_images_left + n }
    else v)

/-- Function `add_referral_reward` (`crud.py` 968–1009): an SQL `UPDATE` adds
`images_rewarded` to `free_images_left` of every user row with the given
id, and one `ReferralReward` row is appended. -/
def add_referral_reward (db : DB) (user_id : Nat) (referred_user_id : Nat)
    (reward_type : String) (images_rewarded : Nat) (order_id : Option Nat) :
    DB × ReferralReward :=
  let reward : ReferralReward :=
    { user_id := user_id, referred_user_id := referred_user_id,
      order_id := order_id, reward_type := reward_type,
      images_rewarded := images_rewarded }
  ({ db with
      users := creditFreeAll db.users user_id images_rewarded,
      rewards := db.rewards ++ [reward] },
   reward)

/-- The referral block of `mark_order_paid` (`crud.py` 404–424): after
`session.refresh(order, [user, package])`, when the buyer has a
`referred_by_id`, the reward is `int(images_count * percent / 100)`
(truncating division, which on these non-negative operands is the floor),
credited via `add_referral_reward` when positive. -/
def processReferralReward (db : DB) (o : Order) (percent : Nat) : DB :=
  match findUserById db o.user_id with
  | none => db
  | some u =>
    match u.referred_by_id with
    | none => db
    | some refId =>
      match findPackageById db o.package_id with
      | none => db
      | some pkg =>
        let referral_reward := pkg.images_count * percent / 100
        if referral_reward > 0 then
          (add_referral_reward db refId u.id "referral_purchase"
            referral_reward (some o.id)).1
        else db

/-- Mutation `order.status = "paid"; order.paid_at = utcnow()` on the row
selected by invoice id (the first match in the list model). -/
def stampPaidFirst (orders : List Order) (invoice_id : String) (now : Nat) : List Order :=
  updateFirst (fun x => x.invoice_id == some invoice_id)
    (fun x => { x with status := "paid", paid_at := some now }) orders

/-- Function `mark_order_paid` (`crud.py` 385–429), parametrised by the configured
reward percentage (`settings.REFERRAL_REWARD_PURCHASE_PERCENT`) and the
`datetime.utcnow()` timestamp.  Returns the order when it flipped it to
paid, `none` when the order is unknown or already paid. -/
def mark_order_paid (db : DB) (invoice_id : String) (percent : Nat) (now : Nat) :
    DB × Option Order :=
  match get_order_by_invoice_id db invoice_id with
  | none => (db, none)
  | some o =>
    if o.status == "paid" then (db, none)
    else
      let o' : Order := { o with status := "paid", paid_at := some now }
      let db1 := { db with orders := stampPaidFirst db.orders invoice_id now }
      (processReferralReward db1 o percent, some o')

/-- Mutation `user.referred_by_id = referrer_id` on the row selected by
`User.id` (the first match in the list model). -/
def setReferrerFirst (users : List User) (user_id referrer_id : Nat) : List User :=
  updateFirst (fun v => v.id == user_id)
    (fun v => { v with referred_by_id := some referrer_id }) users

/-- The SQL `UPDATE users SET total_referrals = total_referrals + 1
WHERE id == referrer_id` issued by `set_user_referrer`. -/
def bumpReferralsAll (users : List User) (referrer_id : Nat) : List User :=
  users.map (fun v =>
    if v.id == referrer_id then { v with total_referrals := v.total_referrals + 1 }
    else v)

/-- The state produced by a successful referrer assignment: the user row
gets `referred_by_id` and the referrer rows get `total_referrals + 1`. -/
def assignReferrerState (db : DB) (user_id referrer_id : Nat) : DB :=
  { db with
    users := bumpReferralsAll (setReferrerFirst db.users user_id referrer_id) referrer_id }

/-- Function `set_user_referrer` (`crud.py` 930–965).  `scalar_one()` raises for an
unknown user; the referrer is set only when unset and not self, and the
referrer's `total_referrals` is bumped by an SQL `UPDATE` in that case.
The commit then runs into the foreign key `users.referred_by_id →
users.id` declared in `models.py`: writing a nonexistent referrer aborts
with an integrity error (the no-op branch writes nothing, so it cannot
hit the constraint). -/
def set_user_referrer (db : DB) (user_id : Nat) (referrer_id : Nat) :
    Except String (DB × Bool) :=
  match findUserById db user_id with
  | none => .error "NoResultFound"
  | some u =>
    if u.referred_by_id.isNone && user_id != referrer_id then
      if (findUserById db referrer_id).isNone then
        .error "IntegrityError: foreign key users.referred_by_id"
      else
        .ok (assignReferrerState db user_id referrer_id, true)
    else
      .ok (db, false)

/-- One entry of `settings.packages_config` (`config.py`). -/
structure PackageConfig where
  name : String
  images_count : Nat
  price_rub : Int
  deriving Repr, DecidableEq

/-- The lookup predicate of the sync loop: an existing package matches a
config entry by `(name, images_count)`. -/
def matchesCfg (cfg : PackageConfig) (p : Package) : Bool :=
  p.name == cfg.name && p.images_count == cfg.images_count

/-- The loop body of `sync_packages_from_config`: match an existing
package by `(name, images_count)` and update it, or insert a new active
one; either way record its id. -/
def syncStep (st : DB × List Nat) (cfg : PackageConfig) : DB × List Nat :=
  let db := st.1
  let activeIds := st.2
  match db.packages.find? (matchesCfg cfg) with
  | some p =>
    let packages' := updateFirst (matchesCfg cfg)
      (fun q => { q with price_rub := cfg.price_rub, is_active := true }) db.packages
    ({ db with packages := packages' }, activeIds ++ [p.id])
  | none =>
    let p : Package :=
      { id := db.nextPackageId, name := cfg.name, images_count := cfg.images_count,
        price_rub := cfg.price_rub, is_active := true }
    ({ db with packages := db.packages ++ [p], nextPackageId := db.nextPackageId + 1 },
     activeIds ++ [p.id])

/-- Function `sync_packages_from_config` (`crud.py` 294–346): run the loop, then
`UPDATE packages SET is_active = False WHERE id NOT IN active_ids`. -/
def sync_packages_from_config (db : DB) (cfgs : List PackageConfig) : DB :=
  let st := cfgs.foldl syncStep (db, [])
  let db1 := st.1
  let activeIds := st.2
  let packages' := db1.packages.map (fun p =>
    if activeIds.contains p.id then p else { p with is_active := false })
  { db1 with packages := packages' }

/-- The invariant behind the non-negativity guarantee: every stored
free-credit counter is non-negative (the derived paid component is
floored at zero by construction). -/
def balanceInv (db : DB) : Prop :=
  ∀ u ∈ db.users, 0 ≤ u.free_images_left

/-- Well-formedness of the package table, maintained by its primary-key
sequence: every id is below the sequence value and ids are pairwise
distinct. -/
def packagesWF (db : DB) : Prop :=
  (∀ p ∈ db.packages, p.id < db.nextPackageId) ∧ (db.packages.map Package.id).Nodup

/-! Concrete database fixtures used to instantiate the theorems. -/

/-- A user with two free credits and no referrer. -/
def uAlice : User := ⟨1, 100, 2, 0, none, none, 0⟩

/-- A user with no free credits, referred by `uAlice`. -/
def uBob : User := ⟨2, 200, 0, 0, some 1, none, 0⟩

/-- A 50-image package. -/
def pkg50 : Package := ⟨1, "Standard", 50, 990, true⟩

/-- A pending order of `uBob` for `pkg50`. -/
def ordPending : Order := ⟨1, 2, 1, some "inv1", 990, "pending", none⟩

/-- A working database: two users, one package, one pending order. -/
def dbW : DB := ⟨[uAlice, uBob], [pkg50], [ordPending], [], [], 2, 2⟩

/-- A database whose only user has a zero balance. -/
def dbZero : DB := ⟨[⟨3, 300, 0, 0, none, none, 0⟩], [], [], [], [], 1, 1⟩

/-- A database holding an already-settled order for invoice `inv1`. -/
def dbPaid : DB :=
  ⟨[uAlice, uBob], [pkg50], [⟨1, 2, 1, some "inv1", 990, "paid", some 5⟩], [], [], 2, 2⟩

/-- An empty database, start state of the catalog-sync scenario. -/
def dbP0 : DB := ⟨[], [], [], [], [], 1, 1⟩

/-- Catalog config entry A. -/
def cfgA : PackageConfig := ⟨"A", 50, 990⟩

/-- Catalog config entry B. -/
def cfgB : PackageConfig := ⟨"B", 20, 490⟩

/-- Catalog config entry B with an updated price. -/
def cfgB2 : PackageConfig := ⟨"B", 20, 450⟩

/-- Catalog config entry C. -/
def cfgC : PackageConfig := ⟨"C", 100, 1990⟩

/-! Generic lemmas about `updateFirst`, `List.find?` and `List.map`. -/

theorem find?_updateFirst (p : α → Bool) (f : α → α)
    (hp : ∀ a, p (f a) = p a) (l : List α) :
    (updateFirst p f l).find? p = (l.find? p).map f := by
  induction l with
  | nil => rfl
  | cons x xs ih =>
    cases hx : p x with
    | true =>
      rw [updateFirst, if_pos hx, List.find?_cons_of_pos _ ((hp x).trans hx),
        List.find?_cons_of_pos _ hx, Option.map_some']
    | false =>
      rw [updateFirst, if_neg (by simp [hx]), List.find?_cons_of_neg _ (by simp [hx]),
        List.find?_cons_of_neg _ (by simp [hx]), ih]

theorem updateFirst_updateFirst (p : α → Bool) (f g : α → α)
    (hp : ∀ a, p (f a) = p a) (hgf : ∀ a, g (f a) = a) (l : List α) :
    updateFirst p g (updateFirst p f l) = l := by
  induction l with
  | nil => rfl
  | cons x xs ih =>
    cases hx : p x with
    | true =>
      rw [updateFirst, if_pos hx, updateFirst, if_pos ((hp x).trans hx), hgf x]
    | false =>
      rw [updateFirst, if_neg (by simp [hx]), updateFirst, if_neg (by simp [hx]), ih]

theorem find?_map_of_pred (p : α → Bool) (g : α → α)
    (hp : ∀ a, p (g a) = p a) (l : List α) :
    (l.map g).find? p = (l.find? p).map g := by
  induction l with
  | nil => rfl
  | cons x xs ih =>
    cases hx : p x with
    | true =>
      rw [List.map_cons, List.find?_cons_of_pos _ ((hp x).trans hx),
        List.find?_cons_of_pos _ hx, Option.map_some']
    | false =>
      rw [List.map_cons, List.find?_cons_of_neg _ (by simp [hp x, hx]),
        List.find?_cons_of_neg _ (by simp [hx]), ih]

theorem mem_updateFirst (p : α → Bool) (f : α → α) (l : List α) (x : α)
    (hx : x ∈ updateFirst p f l) :
    x ∈ l ∨ ∃ a, l.find? p = some a ∧ x = f a := by
  induction l with
  | nil => simp [updateFirst] at hx
  | cons y ys ih =>
    cases hy : p y with
    | true =>
      rw [updateFirst, if_pos hy] at hx
      rcases List.mem_cons.mp hx with h | h
      · exact Or.inr ⟨y, List.find?_cons_of_pos _ hy, h⟩
      · exact Or.inl (List.mem_cons_of_mem _ h)
    | false =>
      rw [updateFirst, if_neg (by simp [hy])] at hx
      rcases List.mem_cons.mp hx with h | h
      · exact Or.inl (h ▸ List.mem_cons_self _ _)
      · rcases ih h with h' | ⟨a, ha, hfa⟩
        · exact Or.inl (List.mem_cons_of_mem _ h')
        · exact Or.inr ⟨a, by rw [List.find?_cons_of_neg _ (by simp [hy])]; exact ha, hfa⟩

theorem mem_updateFirst_of_mem (p : α → Bool) (f : α → α) (l : List α) (x : α)
    (hx : x ∈ l) :
    x ∈ updateFirst p f l ∨ (p x = true ∧ f x ∈ updateFirst p f l) := by
  induction l with
  | nil => simp at hx
  | cons y ys ih =>
    cases hy : p y with
    | true =>
      rw [updateFirst, if_pos hy]
      rcases List.mem_cons.mp hx with h | h
      · exact Or.inr ⟨h ▸ hy, by rw [h]; exact List.mem_cons_self _ _⟩
      · exact Or.inl (List.mem_cons_of_mem _ h)
    | false =>
      rw [updateFirst, if_neg (by simp [hy])]
      rcases List.mem_cons.mp hx with h | h
      · exact Or.inl (h ▸ List.mem_cons_self _ _)
      · rcases ih h with h' | ⟨hpx, h'⟩
        · exact Or.inl (List.mem_cons_of_mem _ h')
        · exact Or.inr ⟨hpx, List.mem_cons_of_mem _ h'⟩

theorem fa_mem_updateFirst (p : α → Bool) (f : α → α) (l : List α) (a : α)
    (h : l.find? p = some a) : f a ∈ updateFirst p f l := by
  induction l with
  | nil => simp at h
  | cons y ys ih =>
    cases hy : p y with
    | true =>
      rw [List.find?_cons_of_pos _ hy, Option.some_inj] at h
      rw [updateFirst, if_pos hy, h]
      exact List.mem_cons_self _ _
    | false =>
      rw [List.find?_cons_of_neg _ (by simp [hy])] at h
      rw [updateFirst, if_neg (by simp [hy])]
      exact List.mem_cons_of_mem _ (ih h)

theorem map_updateFirst (p : α → Bool) (f : α → α) (g : α → β)
    (hg : ∀ a, g (f a) = g a) (l : List α) :
    (updateFirst p f l).map g = l.map g := by
  induction l with
  | nil => rfl
  | cons y ys ih =>
    cases hy : p y with
    | true => rw [updateFirst, if_pos hy, List.map_cons, List.map_cons, hg y]
    | false => rw [updateFirst, if_neg (by simp [hy]), List.map_cons, List.map_cons, ih]

theorem find?_map_ite (q : α → Bool) (f : α → α) (l : List α)
    (hf : ∀ a, q (f a) = q a) :
    (l.map (fun a => if q a then f a else a)).find? q = (l.find? q).map f := by
  induction l with
  | nil => rfl
  | cons x xs ih =>
    cases hx : q x with
    | true =>
      rw [List.map_cons, if_pos hx, List.find?_cons_of_pos _ ((hf x).trans hx),
        List.find?_cons_of_pos _ hx, Option.map_some']
    | false =>
      rw [List.map_cons, if_neg (by simp [hx]), List.find?_cons_of_neg _ (by simp [hx]),
        List.find?_cons_of_neg _ (by simp [hx]), ih]

theorem find?_updateFirst_of_ne (p q : α → Bool) (f : α → α)
    (hpq : ∀ a, p a = true → q a = false) (hq : ∀ a, q (f a) = q a) (l : List α) :
    (updateFirst p f l).find? q = l.find? q := by
  induction l with
  | nil => rfl
  | cons x xs ih =>
    cases hx : p x with
    | true =>
      rw [updateFirst, if_pos hx,
        List.find?_cons_of_neg _ (by simp [hq x, hpq x hx]),
        List.find?_cons_of_neg _ (by simp [hpq x hx])]
    | false =>
      rw [updateFirst, if_neg (by simp [hx])]
      cases hqx : q x with
      | true => rw [List.find?_cons_of_pos _ hqx, List.find?_cons_of_pos _ hqx]
      | false =>
        rw [List.find?_cons_of_neg _ (by simp [hqx]),
          List.find?_cons_of_neg _ (by simp [hqx]), ih]

/-! Case equations for the ledger operations. -/

theorem reserve_none (db : DB) (tid : Nat) (h : findUserByTid db tid = none) :
    check_and_reserve_balance db tid = (db, false, false) := by
  rw [check_and_reserve_balance, h]

theorem reserve_free (db : DB) (tid : Nat) (u : User)
    (h : findUserByTid db tid = some u) (hfree : u.free_images_left > 0) :
    check_and_reserve_balance db tid =
      ({ db with users := decFreeFirst db.users tid }, true, true) := by
  simp only [check_and_reserve_balance, h, if_pos hfree]

theorem reserve_paid (db : DB) (tid : Nat) (u : User)
    (h : findUserByTid db tid = some u) (hfree : ¬u.free_images_left > 0)
    (hpaid : paidTotal db u.id - usedPaid db u.id > 0) :
    check_and_reserve_balance db tid = (db, true, false) := by
  simp only [check_and_reserve_balance, h, if_neg hfree, if_pos hpaid]

theorem reserve_denied (db : DB) (tid : Nat) (u : User)
    (h : findUserByTid db tid = some u) (hfree : ¬u.free_images_left > 0)
    (hpaid : ¬paidTotal db u.id - usedPaid db u.id > 0) :
    check_and_reserve_balance db tid = (db, false, false) := by
  simp only [check_and_reserve_balance, h, if_neg hfree, if_neg hpaid]

theorem rollback_paid_noop (db : DB) (tid : Nat) :
    rollback_balance db tid false = db := rfl

theorem find?_decFreeFirst (users : List User) (tid : Nat) :
    (decFreeFirst users tid).find? (fun v => v.telegram_id == tid) =
      (users.find? (fun v => v.telegram_id == tid)).map
        (fun v => { v with free_images_left := v.free_images_left - 1 }) := by
  unfold decFreeFirst
  apply find?_updateFirst
  intro a
  rfl

theorem incFreeFirst_decFreeFirst (users : List User) (tid : Nat) :
    incFreeFirst (decFreeFirst users tid) tid = users := by
  unfold incFreeFirst decFreeFirst
  apply updateFirst_updateFirst
  · intro a
    rfl
  · intro a
    cases a
    simp

theorem rollback_free_none (db : DB) (tid : Nat) (h : findUserByTid db tid = none) :
    rollback_balance db tid true = db := by
  simp only [rollback_balance, h, Bool.not_true, Bool.false_eq_true, if_false]

theorem rollback_free_some (db : DB) (tid : Nat) (u : User)
    (h : findUserByTid db tid = some u) :
    rollback_balance db tid true = { db with users := incFreeFirst db.users tid } := by
  simp only [rollback_balance, h, Bool.not_true, Bool.false_eq_true, if_false]

/-! Claim theorems. -/

/-- C10: `get_user_balance` called for an account that does not exist
returns the all-zero balance dict instead of a not-found error, and an
existing account with an empty balance produces the very same value, so
the two cases are indistinguishable from the result. -/
theorem C10_unknown_account_zero_balance (db : DB) (tid : Nat)
    (h : findUserByTid db tid = none) :
    get_user_balance db tid = ⟨0, 0, 0⟩ ∧
    findUserByTid dbZero 300 ≠ none ∧ get_user_balance dbZero 300 = ⟨0, 0, 0⟩ := by
  refine ⟨?_, by decide, by decide⟩
  rw [get_user_balance, h]

theorem C10_witness :
    findUserByTid dbW 999 = none ∧ get_user_balance dbW 999 = ⟨0, 0, 0⟩ := by
  have h := C10_unknown_account_zero_balance dbW 999 (by decide)
  exact ⟨by decide, h.1⟩

/-- C2: the four cases of `check_and_reserve_balance`: an unknown account
is denied; a positive free counter is consumed first (decrement by one,
granted with `usedFree = true`); otherwise a positive recomputed
paid-remaining grants with no state change at all (in particular no
consumption record is written and no counter moves); otherwise the
request is denied, also with no state change. -/
theorem C2_reserve_cases (db : DB) (tid : Nat) :
    (findUserByTid db tid = none →
      check_and_reserve_balance db tid = (db, false, false)) ∧
    (∀ u, findUserByTid db tid = some u →
      (0 < u.free_images_left →
        check_and_reserve_balance db tid =
          ({ db with users := decFreeFirst db.users tid }, true, true)) ∧
      (u.free_images_left ≤ 0 →
        (0 < paidTotal db u.id - usedPaid db u.id →
          check_and_reserve_balance db tid = (db, true, false)) ∧
        (paidTotal db u.id - usedPaid db u.id ≤ 0 →
          check_and_reserve_balance db tid = (db, false, false)))) := by
  refine ⟨reserve_none db tid, fun u hu => ⟨fun hfree => ?_, fun hle => ⟨fun hp => ?_, fun hp => ?_⟩⟩⟩
  · exact reserve_free db tid u hu hfree
  · exact reserve_paid db tid u hu (by omega) hp
  · exact reserve_denied db tid u hu (by omega) (by omega)

theorem C2_witness :
    (findUserByTid dbW 100 = some uAlice ∧ 0 < uAlice.free_images_left ∧
      check_and_reserve_balance dbW 100 =
        ({ dbW with users := decFreeFirst dbW.users 100 }, true, true)) ∧
    (findUserByTid dbW 999 = none ∧
      check_and_reserve_balance dbW 999 = (dbW, false, false)) := by
  have h1 := ((C2_reserve_cases dbW 100).2 uAlice (by decide)).1 (by decide)
  have h2 := (C2_reserve_cases dbW 999).1 (by decide)
  exact ⟨⟨by decide, by decide, h1⟩, ⟨by decide, h2⟩⟩

/-- C3: round-trip: a reservation that granted a free credit followed by
a rollback with `usedFree = true` restores the whole pre-reservation
database state (hence every component of the balance); a rollback with
`usedFree = false` changes no state at all. -/
theorem C3_reserve_rollback_roundtrip (db : DB) (tid : Nat) :
    (∀ db', check_and_reserve_balance db tid = (db', true, true) →
      rollback_balance db' tid true = db ∧
      get_user_balance (rollback_balance db' tid true) tid = get_user_balance db tid) ∧
    rollback_balance db tid false = db := by
  refine ⟨fun db' h => ?_, rollback_paid_noop db tid⟩
  cases hfind : findUserByTid db tid with
  | none => rw [reserve_none db tid hfind] at h; simp at h
  | some u =>
    by_cases hfree : u.free_images_left > 0
    · rw [reserve_free db tid u hfind hfree] at h
      simp only [Prod.mk.injEq, and_true] at h
      have hfind' : findUserByTid { db with users := decFreeFirst db.users tid } tid =
          some { u with free_images_left := u.free_images_left - 1 } := by
        show (decFreeFirst db.users tid).find? (fun v => v.telegram_id == tid) = _
        rw [find?_decFreeFirst db.users tid]
        rw [show List.find? (fun v => v.telegram_id == tid) db.users = some u from hfind]
        rfl
      have hroll : rollback_balance db' tid true = db := by
        rw [← h, rollback_free_some _ tid _ hfind']
        show ({ db with users := incFreeFirst (decFreeFirst db.users tid) tid } : DB) = db
        rw [incFreeFirst_decFreeFirst db.users tid]
      exact ⟨hroll, by rw [hroll]⟩
    · by_cases hpaid : paidTotal db u.id - usedPaid db u.id > 0
      · rw [reserve_paid db tid u hfind hfree hpaid] at h; simp at h
      · rw [reserve_denied db tid u hfind hfree hpaid] at h; simp at h

theorem C3_witness :
    check_and_reserve_balance dbW 100 =
      ({ dbW with users := decFreeFirst dbW.users 100 }, true, true) ∧
    rollback_balance { dbW with users := decFreeFirst dbW.users 100 } 100 true = dbW ∧
    rollback_balance dbW 100 false = dbW := by
  have h := C3_reserve_rollback_roundtrip dbW 100
  have h1 := h.1 { dbW with users := decFreeFirst dbW.users 100 } (by decide)
  exact ⟨by decide, h1.1, h.2⟩

/-! Settlement: supporting lemmas. -/

theorem processReferralReward_orders (db : DB) (o : Order) (percent : Nat) :
    (processReferralReward db o percent).orders = db.orders := by
  rw [processReferralReward]
  split
  · rfl
  · split
    · rfl
    · split
      · rfl
      · dsimp only
        split
        · rfl
        · rfl

theorem find?_stampPaidFirst (orders : List Order) (invoice_id : String) (now : Nat) :
    (stampPaidFirst orders invoice_id now).find? (fun x => x.invoice_id == some invoice_id) =
      (orders.find? (fun x => x.invoice_id == some invoice_id)).map
        (fun x => { x with status := "paid", paid_at := some now }) := by
  unfold stampPaidFirst
  apply find?_updateFirst
  intro a
  rfl

theorem mark_order_paid_not_found (db : DB) (invoice_id : String) (percent now : Nat)
    (h : get_order_by_invoice_id db invoice_id = none) :
    mark_order_paid db invoice_id percent now = (db, none) := by
  rw [mark_order_paid, h]

theorem mark_order_paid_already (db : DB) (invoice_id : String) (percent now : Nat)
    (o : Order) (h : get_order_by_invoice_id db invoice_id = some o)
    (hst : o.status = "paid") :
    mark_order_paid db invoice_id percent now = (db, none) := by
  rw [mark_order_paid, h]
  simp [hst]

theorem mark_order_paid_transition (db : DB) (invoice_id : String) (percent now : Nat)
    (o : Order) (h : get_order_by_invoice_id db invoice_id = some o)
    (hst : ¬o.status = "paid") :
    mark_order_paid db invoice_id percent now =
      (processReferralReward { db with orders := stampPaidFirst db.orders invoice_id now }
        o percent,
       some { o with status := "paid", paid_at := some now }) := by
  rw [mark_order_paid, h]
  simp only [beq_iff_eq, if_neg hst]

/-- C1: settlement is idempotent: when a first `mark_order_paid` call for
an external reference transitions the order to paid and returns it, a
second call with the same reference returns `none` and leaves the whole
database state — order status and `paid_at`, every user's free-credit
count, and the `ReferralReward` table — exactly as after the first call. -/
theorem C1_settlement_idempotent (db : DB) (invoice_id : String)
    (percent now now2 : Nat) (db' : DB) (o : Order)
    (h : mark_order_paid db invoice_id percent now = (db', some o)) :
    mark_order_paid db' invoice_id percent now2 = (db', none) := by
  cases hfind : get_order_by_invoice_id db invoice_id with
  | none =>
    rw [mark_order_paid_not_found db invoice_id percent now hfind] at h
    simp at h
  | some o0 =>
    by_cases hst : o0.status = "paid"
    · rw [mark_order_paid_already db invoice_id percent now o0 hfind hst] at h
      simp at h
    · rw [mark_order_paid_transition db invoice_id percent now o0 hfind hst] at h
      simp only [Prod.mk.injEq, Option.some.injEq] at h
      obtain ⟨hdb, ho⟩ := h
      have hfind2 : get_order_by_invoice_id db' invoice_id =
          some { o0 with status := "paid", paid_at := some now } := by
        rw [← hdb, get_order_by_invoice_id, processReferralReward_orders]
        dsimp only
        rw [find?_stampPaidFirst]
        rw [show List.find? (fun x => x.invoice_id == some invoice_id) db.orders =
          some o0 from hfind]
        rfl
      exact mark_order_paid_already db' invoice_id percent now2 _ hfind2 rfl

theorem C1_witness :
    mark_order_paid (mark_order_paid dbW "inv1" 10 7).1 "inv1" 10 8 =
      ((mark_order_paid dbW "inv1" 10 7).1, none) :=
  C1_settlement_idempotent dbW "inv1" 10 7 8 (mark_order_paid dbW "inv1" 10 7).1
    ⟨1, 2, 1, some "inv1", 990, "paid", some 7⟩ (by decide)

/-- C5 (amended): the settlement result distinguishes a first-time
settlement (`some order`) from the two other outcomes, but a replayed
notification and an unknown reference both yield `none`, so only two of
the three outcomes are distinguishable from the result alone. -/
theorem C5_settlement_result_discrimination (db : DB) (invoice_id : String)
    (percent now : Nat) :
    ((mark_order_paid db invoice_id percent now).2.isSome = true ↔
      ∃ o, get_order_by_invoice_id db invoice_id = some o ∧ o.status ≠ "paid") ∧
    (get_order_by_invoice_id db invoice_id = none →
      (mark_order_paid db invoice_id percent now).2 = none) ∧
    (∀ o, get_order_by_invoice_id db invoice_id = some o → o.status = "paid" →
      (mark_order_paid db invoice_id percent now).2 = none) := by
  refine ⟨⟨?_, ?_⟩,
    fun h => by rw [mark_order_paid_not_found db invoice_id percent now h],
    fun o h hst => by rw [mark_order_paid_already db invoice_id percent now o h hst]⟩
  · intro hs
    cases hfind : get_order_by_invoice_id db invoice_id with
    | none =>
      rw [mark_order_paid_not_found db invoice_id percent now hfind] at hs
      simp at hs
    | some o =>
      by_cases hst : o.status = "paid"
      · rw [mark_order_paid_already db invoice_id percent now o hfind hst] at hs
        simp at hs
      · exact ⟨o, rfl, hst⟩
  · rintro ⟨o, hfind, hst⟩
    rw [mark_order_paid_transition db invoice_id percent now o hfind hst]
    rfl

theorem C5_witness :
    (mark_order_paid dbW "inv1" 10 7).2.isSome = true :=
  (C5_settlement_result_discrimination dbW "inv1" 10 7).1.mpr
    ⟨ordPending, by decide, by decide⟩

/-- C5 counterexample: an unknown reference (`dbZero` holds no orders)
and a replayed, already-paid reference (`dbPaid`) produce the identical
result `none` with an unchanged state, so the caller cannot tell the
three outcomes apart from the result alone. -/
theorem C5_counterexample :
    get_order_by_invoice_id dbZero "inv1" = none ∧
    (∃ o, get_order_by_invoice_id dbPaid "inv1" = some o ∧ o.status = "paid") ∧
    mark_order_paid dbZero "inv1" 10 7 = (dbZero, none) ∧
    mark_order_paid dbPaid "inv1" 10 7 = (dbPaid, none) := by
  exact ⟨by decide, ⟨⟨1, 2, 1, some "inv1", 990, "paid", some 5⟩, by decide, rfl⟩,
    by decide, by decide⟩

/-- C8: `create_order` fails with an error, creating nothing, when the
account is unknown or the package is unknown (the latter through the
foreign-key constraint hit at commit); when both exist and the supplied
external reference is fresh — the uniqueness precondition the spec puts
on `external_reference` — it creates exactly one pending order linked to
that account and package. -/
theorem C8_create_order (db : DB) (tid pid : Nat) (inv : String) (amount : Int) :
    (findUserByTid db tid = none →
      create_order db tid pid inv amount = .error "User not found") ∧
    (findUserByTid db tid ≠ none → findPackageById db pid = none →
      ∃ e, create_order db tid pid inv amount = .error e) ∧
    (∀ u pkg, findUserByTid db tid = some u → findPackageById db pid = some pkg →
      (∀ o ∈ db.orders, o.invoice_id ≠ some inv) →
      create_order db tid pid inv amount =
        .ok ({ db with
                orders := db.orders ++
                  [{ id := db.nextOrderId, user_id := u.id, package_id := pid,
                     invoice_id := some inv, amount := amount, status := "pending",
                     paid_at := none }],
                nextOrderId := db.nextOrderId + 1 },
             { id := db.nextOrderId, user_id := u.id, package_id := pid,
               invoice_id := some inv, amount := amount, status := "pending",
               paid_at := none })) := by
  refine ⟨fun h => by rw [create_order, h], fun hu hp => ?_, fun u pkg hu hp hfresh => ?_⟩
  · cases hfind : findUserByTid db tid with
    | none => exact absurd hfind hu
    | some u =>
      refine ⟨"IntegrityError: foreign key packages.id", ?_⟩
      rw [create_order, hfind]
      simp [hp]
  · rw [create_order, hu]
    have hp' : (findPackageById db pid).isNone = false := by rw [hp]; rfl
    have hany : (db.orders.any (fun o => o.invoice_id == some inv)) = false := by
      rw [List.any_eq_false]
      intro o ho
      simpa using hfresh o ho
    simp only [hp', Bool.false_eq_true, if_false, hany]

theorem C8_witness :
    (create_order dbW 100 1 "inv2" 490 =
      .ok ({ dbW with
              orders := dbW.orders ++
                [{ id := 2, user_id := 1, package_id := 1, invoice_id := some "inv2",
                   amount := 490, status := "pending", paid_at := none }],
              nextOrderId := 3 },
           { id := 2, user_id := 1, package_id := 1, invoice_id := some "inv2",
             amount := 490, status := "pending", paid_at := none })) ∧
    create_order dbW 999 1 "inv2" 490 = .error "User not found" ∧
    ∃ e, create_order dbW 100 77 "inv2" 490 = .error e := by
  refine ⟨?_, (C8_create_order dbW 999 1 "inv2" 490).1 (by decide),
    (C8_create_order dbW 100 77 "inv2" 490).2.1 (by decide) (by decide)⟩
  exact (C8_create_order dbW 100 1 "inv2" 490).2.2 uAlice pkg50 (by decide) (by decide)
    (by decide)

/-! Referrer assignment: supporting lemmas. -/

theorem findById_bumpReferralsAll (users : List User) (rid uid : Nat) :
    (bumpReferralsAll users rid).find? (fun v => v.id == uid) =
      (users.find? (fun v => v.id == uid)).map
        (fun v => if v.id == rid then { v with total_referrals := v.total_referrals + 1 }
                  else v) := by
  unfold bumpReferralsAll
  apply find?_map_of_pred
  intro a
  by_cases h : (a.id == rid) = true
  · rw [if_pos h]
  · rw [if_neg h]

theorem findById_setReferrerFirst_self (users : List User) (uid rid : Nat) :
    (setReferrerFirst users uid rid).find? (fun v => v.id == uid) =
      (users.find? (fun v => v.id == uid)).map
        (fun v => { v with referred_by_id := some rid }) := by
  unfold setReferrerFirst
  apply find?_updateFirst
  intro a
  rfl

theorem findById_setReferrerFirst_other (users : List User) (uid rid q : Nat)
    (h : q ≠ uid) :
    (setReferrerFirst users uid rid).find? (fun v => v.id == q) =
      users.find? (fun v => v.id == q) := by
  unfold setReferrerFirst
  apply find?_updateFirst_of_ne
  · intro a ha
    rw [beq_eq_false_iff_ne, beq_iff_eq.mp ha]
    exact Ne.symm h
  · intro a
    rfl

theorem set_user_referrer_missing (db : DB) (user_id referrer_id : Nat)
    (h : findUserById db user_id = none) :
    set_user_referrer db user_id referrer_id = .error "NoResultFound" := by
  rw [set_user_referrer, h]

theorem set_user_referrer_success (db : DB) (user_id referrer_id : Nat) (u : User)
    (hu : findUserById db user_id = some u)
    (hcond : (u.referred_by_id.isNone && (user_id != referrer_id)) = true)
    (href : (findUserById db referrer_id).isNone = false) :
    set_user_referrer db user_id referrer_id =
      .ok (assignReferrerState db user_id referrer_id, true) := by
  rw [set_user_referrer, hu]
  simp only [hcond, if_true, href, Bool.false_eq_true, if_false]

theorem set_user_referrer_fk_error (db : DB) (user_id referrer_id : Nat) (u : User)
    (hu : findUserById db user_id = some u)
    (hcond : (u.referred_by_id.isNone && (user_id != referrer_id)) = true)
    (href : (findUserById db referrer_id).isNone = true) :
    set_user_referrer db user_id referrer_id =
      .error "IntegrityError: foreign key users.referred_by_id" := by
  rw [set_user_referrer, hu]
  simp only [hcond, if_true, href]

theorem set_user_referrer_noop (db : DB) (user_id referrer_id : Nat) (u : User)
    (hu : findUserById db user_id = some u)
    (hcond : (u.referred_by_id.isNone && (user_id != referrer_id)) = false) :
    set_user_referrer db user_id referrer_id = .ok (db, false) := by
  rw [set_user_referrer, hu]
  simp only [hcond, Bool.false_eq_true, if_false]

/-- C7: `set_user_referrer` sets `referred_by_id` only when it is unset
and the referrer is not the user themself; for an existing referrer it
returns true exactly in that case, and then the referrer's
`total_referrals` goes up by one, while a nonexistent referrer aborts on
the `users.referred_by_id` foreign key; a later call for the same user
returns false and leaves both the state and the stored referrer
unchanged. -/
theorem C7_assign_referrer (db : DB) (user_id referrer_id : Nat) :
    (∀ u w, findUserById db user_id = some u → u.referred_by_id = none →
      user_id ≠ referrer_id → findUserById db referrer_id = some w →
      set_user_referrer db user_id referrer_id =
        .ok (assignReferrerState db user_id referrer_id, true) ∧
      findUserById (assignReferrerState db user_id referrer_id) user_id =
        some { u with referred_by_id := some referrer_id } ∧
      findUserById (assignReferrerState db user_id referrer_id) referrer_id =
        some { w with total_referrals := w.total_referrals + 1 } ∧
      (∀ r2, set_user_referrer (assignReferrerState db user_id referrer_id) user_id r2 =
        .ok (assignReferrerState db user_id referrer_id, false))) ∧
    (∀ u, findUserById db user_id = some u → u.referred_by_id = none →
      user_id ≠ referrer_id → findUserById db referrer_id = none →
      ∃ e, set_user_referrer db user_id referrer_id = .error e) ∧
    (∀ u r0, findUserById db user_id = some u → u.referred_by_id = some r0 →
      set_user_referrer db user_id referrer_id = .ok (db, false) ∧
      findUserById db user_id = some u) ∧
    (∀ u, findUserById db user_id = some u → user_id = referrer_id →
      set_user_referrer db user_id referrer_id = .ok (db, false)) := by
  refine ⟨fun u w hu hnone hne hw => ?_, fun u hu hnone hne hmiss => ?_,
    fun u r0 hu hset => ?_, fun u hu heq => ?_⟩
  · have hcond : (u.referred_by_id.isNone && (user_id != referrer_id)) = true := by
      simp [hnone, hne]
    have href : (findUserById db referrer_id).isNone = false := by rw [hw]; rfl
    have hself : findUserById (assignReferrerState db user_id referrer_id) user_id =
        some { u with referred_by_id := some referrer_id } := by
      show (bumpReferralsAll (setReferrerFirst db.users user_id referrer_id)
        referrer_id).find? (fun v => v.id == user_id) = _
      rw [findById_bumpReferralsAll, findById_setReferrerFirst_self]
      rw [show List.find? (fun v => v.id == user_id) db.users = some u from hu]
      have hid : u.id = user_id := by
        have := List.find?_some hu
        exact beq_iff_eq.mp this
      simp only [Option.map_some']
      rw [if_neg (by simp only [beq_iff_eq, hid]; exact hne)]
    refine ⟨set_user_referrer_success db user_id referrer_id u hu hcond href,
      hself, ?_, ?_⟩
    · show (bumpReferralsAll (setReferrerFirst db.users user_id referrer_id)
        referrer_id).find? (fun v => v.id == referrer_id) = _
      rw [findById_bumpReferralsAll,
        findById_setReferrerFirst_other db.users user_id referrer_id referrer_id
          (Ne.symm hne)]
      rw [show List.find? (fun v => v.id == referrer_id) db.users = some w from hw]
      have hwid := List.find?_some hw
      simp only [Option.map_some']
      rw [if_pos (show (w.id == referrer_id) = true from hwid)]
    · intro r2
      exact set_user_referrer_noop _ user_id r2 _ hself (by simp)
  · have hcond : (u.referred_by_id.isNone && (user_id != referrer_id)) = true := by
      simp [hnone, hne]
    exact ⟨_, set_user_referrer_fk_error db user_id referrer_id u hu hcond
      (by rw [hmiss]; rfl)⟩
  · refine ⟨set_user_referrer_noop db user_id referrer_id u hu (by simp [hset]), hu⟩
  · exact set_user_referrer_noop db user_id referrer_id u hu (by simp [heq])

theorem C7_witness :
    (set_user_referrer dbW 1 2 = .ok (assignReferrerState dbW 1 2, true) ∧
      findUserById (assignReferrerState dbW 1 2) 1 =
        some { uAlice with referred_by_id := some 2 } ∧
      findUserById (assignReferrerState dbW 1 2) 2 =
        some { uBob with total_referrals := uBob.total_referrals + 1 } ∧
      set_user_referrer (assignReferrerState dbW 1 2) 1 3 =
        .ok (assignReferrerState dbW 1 2, false)) ∧
    (∃ e, set_user_referrer dbZero 3 1 = .error e) ∧
    set_user_referrer dbW 2 1 = .ok (dbW, false) ∧
    set_user_referrer dbW 1 1 = .ok (dbW, false) := by
  have h1 := (C7_assign_referrer dbW 1 2).1 uAlice uBob (by decide) rfl
    (by decide) (by decide)
  have h2 := (C7_assign_referrer dbZero 3 1).2.1 ⟨3, 300, 0, 0, none, none, 0⟩
    (by decide) rfl (by decide) (by decide)
  have h3 := ((C7_assign_referrer dbW 2 1).2.2.1 uBob 1 (by decide) rfl).1
  have h4 := (C7_assign_referrer dbW 1 1).2.2.2 uAlice (by decide) rfl
  exact ⟨⟨h1.1, h1.2.1, h1.2.2.1, h1.2.2.2 3⟩, h2, h3, h4⟩

/-! Referral reward on purchase: supporting lemmas. -/

theorem findById_creditFreeAll_self (users : List User) (uid n : Nat) :
    (creditFreeAll users uid n).find? (fun v => v.id == uid) =
      (users.find? (fun v => v.id == uid)).map
        (fun v => { v with free_images_left := v.free_images_left + n }) := by
  unfold creditFreeAll
  apply find?_map_ite
  intro a
  rfl

theorem processReferralReward_reward (db : DB) (o : Order) (percent : Nat)
    (u : User) (r : Nat) (pkg : Package)
    (hu : findUserById db o.user_id = some u)
    (href : u.referred_by_id = some r)
    (hpkg : findPackageById db o.package_id = some pkg)
    (hpos : 0 < pkg.images_count * percent / 100) :
    processReferralReward db o percent =
      { db with
          users := creditFreeAll db.users r (pkg.images_count * percent / 100),
          rewards := db.rewards ++
            [{ user_id := r, referred_user_id := u.id, order_id := some o.id,
               reward_type := "referral_purchase",
               images_rewarded := pkg.images_count * percent / 100 }] } := by
  simp only [processReferralReward, hu, href, hpkg]
  simp only [if_pos (show pkg.images_count * percent / 100 > 0 from hpos)]
  rfl

/-- C4: settling a pending order of a referred buyer computes
`reward = floor(credit_count * reward_percent / 100)` (Python's `int()`
of a non-negative quotient), and when the reward is positive the
settlement appends exactly one `ReferralReward` row with reward type
`referral_purchase` (the on-purchase kind) and raises the referrer's
free-credit count by exactly that reward. -/
theorem C4_purchase_reward (db : DB) (inv : String) (percent now : Nat)
    (o : Order) (u : User) (r : Nat) (pkg : Package)
    (hfind : get_order_by_invoice_id db inv = some o)
    (hpend : o.status = "pending")
    (hu : findUserById db o.user_id = some u)
    (href : u.referred_by_id = some r)
    (hpkg : findPackageById db o.package_id = some pkg)
    (hpos : 0 < pkg.images_count * percent / 100) :
    mark_order_paid db inv percent now =
      ({ db with
          orders := stampPaidFirst db.orders inv now,
          users := creditFreeAll db.users r (pkg.images_count * percent / 100),
          rewards := db.rewards ++
            [{ user_id := r, referred_user_id := u.id, order_id := some o.id,
               reward_type := "referral_purchase",
               images_rewarded := pkg.images_count * percent / 100 }] },
       some { o with status := "paid", paid_at := some now }) ∧
    (∀ w, findUserById db r = some w →
      findUserById (mark_order_paid db inv percent now).1 r =
        some { w with free_images_left :=
          w.free_images_left + (pkg.images_count * percent / 100 : Nat) }) := by
  have hst : ¬o.status = "paid" := by rw [hpend]; decide
  have htrans := mark_order_paid_transition db inv percent now o hfind hst
  have hrew := processReferralReward_reward
    { db with orders := stampPaidFirst db.orders inv now } o percent u r pkg hu href hpkg hpos
  have hmain : mark_order_paid db inv percent now =
      ({ db with
          orders := stampPaidFirst db.orders inv now,
          users := creditFreeAll db.users r (pkg.images_count * percent / 100),
          rewards := db.rewards ++
            [{ user_id := r, referred_user_id := u.id, order_id := some o.id,
               reward_type := "referral_purchase",
               images_rewarded := pkg.images_count * percent / 100 }] },
       some { o with status := "paid", paid_at := some now }) := by
    rw [htrans, hrew]
  refine ⟨hmain, fun w hw => ?_⟩
  rw [hmain]
  show (creditFreeAll db.users r (pkg.images_count * percent / 100)).find?
    (fun v => v.id == r) = _
  rw [findById_creditFreeAll_self]
  rw [show List.find? (fun v => v.id == r) db.users = some w from hw]
  rfl

theorem C4_witness :
    mark_order_paid dbW "inv1" 10 7 =
      ({ dbW with
          orders := stampPaidFirst dbW.orders "inv1" 7,
          users := creditFreeAll dbW.users 1 5,
          rewards := [{ user_id := 1, referred_user_id := 2, order_id := some 1,
                        reward_type := "referral_purchase", images_rewarded := 5 }] },
       some { ordPending with status := "paid", paid_at := some 7 }) ∧
    findUserById (mark_order_paid dbW "inv1" 10 7).1 1 =
      some { uAlice with free_images_left := 7 } := by
  have h := C4_purchase_reward dbW "inv1" 10 7 ordPending uBob 1 pkg50
    (by decide) rfl (by decide) rfl (by decide) (by decide)
  exact ⟨h.1, h.2 uAlice (by decide)⟩

/-! Non-negativity: supporting lemmas. -/

theorem get_user_balance_none (db : DB) (tid : Nat)
    (h : findUserByTid db tid = none) : get_user_balance db tid = ⟨0, 0, 0⟩ := by
  rw [get_user_balance, h]

theorem get_user_balance_some (db : DB) (tid : Nat) (u : User)
    (h : findUserByTid db tid = some u) :
    get_user_balance db tid =
      ⟨u.free_images_left, max 0 (paidTotal db u.id - usedPaid db u.id),
       u.free_images_left + max 0 (paidTotal db u.id - usedPaid db u.id)⟩ := by
  rw [get_user_balance, h]

theorem balanceInv_reserve (db : DB) (tid : Nat) (h : balanceInv db) :
    balanceInv (check_and_reserve_balance db tid).1 := by
  cases hfind : findUserByTid db tid with
  | none => rw [reserve_none db tid hfind]; exact h
  | some u =>
    by_cases hfree : u.free_images_left > 0
    · rw [reserve_free db tid u hfind hfree]
      intro x hx
      rcases mem_updateFirst _ _ db.users x hx with hmem | ⟨a, ha, hxa⟩
      · exact h x hmem
      · rw [show List.find? (fun v => v.telegram_id == tid) db.users = some u
          from hfind] at ha
        cases ha
        subst hxa
        simp only
        omega
    · by_cases hpaid : paidTotal db u.id - usedPaid db u.id > 0
      · rw [reserve_paid db tid u hfind hfree hpaid]; exact h
      · rw [reserve_denied db tid u hfind hfree hpaid]; exact h

theorem balanceInv_rollback (db : DB) (tid : Nat) (b : Bool) (h : balanceInv db) :
    balanceInv (rollback_balance db tid b) := by
  cases b with
  | false => rw [rollback_paid_noop]; exact h
  | true =>
    cases hfind : findUserByTid db tid with
    | none => rw [rollback_free_none db tid hfind]; exact h
    | some u =>
      rw [rollback_free_some db tid u hfind]
      intro x hx
      rcases mem_updateFirst _ _ db.users x hx with hmem | ⟨a, ha, hxa⟩
      · exact h x hmem
      · have hamem := List.mem_of_find?_eq_some ha
        have := h a hamem
        subst hxa
        simp only
        omega

theorem balanceInv_addReward (db : DB) (uid ruid : Nat) (rt : String) (n : Nat)
    (oid : Option Nat) (h : balanceInv db) :
    balanceInv (add_referral_reward db uid ruid rt n oid).1 := by
  intro x hx
  rcases List.mem_map.mp hx with ⟨v, hv, hxv⟩
  have := h v hv
  by_cases hid : (v.id == uid) = true
  · rw [if_pos hid] at hxv
    subst hxv
    simp only
    omega
  · rw [if_neg hid] at hxv
    subst hxv
    exact this

theorem balanceInv_processReferral (db : DB) (o : Order) (p : Nat)
    (h : balanceInv db) : balanceInv (processReferralReward db o p) := by
  rw [processReferralReward]
  split
  · exact h
  · split
    · exact h
    · split
      · exact h
      · dsimp only
        split
        · exact balanceInv_addReward _ _ _ _ _ _ h
        · exact h

theorem balanceInv_markPaid (db : DB) (inv : String) (p now : Nat)
    (h : balanceInv db) : balanceInv (mark_order_paid db inv p now).1 := by
  cases hfind : get_order_by_invoice_id db inv with
  | none => rw [mark_order_paid_not_found db inv p now hfind]; exact h
  | some o =>
    by_cases hst : o.status = "paid"
    · rw [mark_order_paid_already db inv p now o hfind hst]; exact h
    · rw [mark_order_paid_transition db inv p now o hfind hst]
      exact balanceInv_processReferral _ o p h

/-- C6: under the invariant that no stored free counter is negative (true
of every state the core produces), `GetBalance` is non-negative in every
component, with `total = free + paid` and the paid component floored at
zero — also for unknown accounts — and the invariant is preserved by
reservation, rollback, reward crediting and settlement. -/
theorem C6_balance_nonneg (db : DB) (hinv : balanceInv db) :
    (∀ tid, 0 ≤ (get_user_balance db tid).free ∧ 0 ≤ (get_user_balance db tid).paid ∧
      (get_user_balance db tid).total =
        (get_user_balance db tid).free + (get_user_balance db tid).paid) ∧
    (∀ tid, balanceInv (check_and_reserve_balance db tid).1) ∧
    (∀ tid b, balanceInv (rollback_balance db tid b)) ∧
    (∀ uid ruid rt n oid, balanceInv (add_referral_reward db uid ruid rt n oid).1) ∧
    (∀ inv p now, balanceInv (mark_order_paid db inv p now).1) := by
  refine ⟨fun tid => ?_, fun tid => balanceInv_reserve db tid hinv,
    fun tid b => balanceInv_rollback db tid b hinv,
    fun uid ruid rt n oid => balanceInv_addReward db uid ruid rt n oid hinv,
    fun inv p now => balanceInv_markPaid db inv p now hinv⟩
  cases hfind : findUserByTid db tid with
  | none =>
    rw [get_user_balance_none db tid hfind]
    exact ⟨le_refl 0, le_refl 0, rfl⟩
  | some u =>
    rw [get_user_balance_some db tid u hfind]
    exact ⟨hinv u (List.mem_of_find?_eq_some hfind), le_max_left 0 _, rfl⟩

theorem C6_witness :
    balanceInv dbW ∧ 0 ≤ (get_user_balance dbW 200).free ∧
    0 ≤ (get_user_balance dbW 200).paid ∧
    balanceInv (check_and_reserve_balance dbW 100).1 ∧
    balanceInv (mark_order_paid dbW "inv1" 10 7).1 := by
  have h := C6_balance_nonneg dbW (by unfold balanceInv; decide)
  exact ⟨by unfold balanceInv; decide, (h.1 200).1, (h.1 200).2.1, h.2.1 100,
    h.2.2.2.2 "inv1" 10 7⟩

/-! Catalog sync: supporting lemmas. -/

theorem syncStep_WF (st : DB × List Nat) (cfg : PackageConfig)
    (h : packagesWF st.1) : packagesWF (syncStep st cfg).1 := by
  obtain ⟨hbound, hnodup⟩ := h
  cases hfind : st.1.packages.find? (matchesCfg cfg) with
  | some p =>
    simp only [syncStep, hfind]
    constructor
    · intro x hx
      rcases mem_updateFirst _ _ _ x hx with hmem | ⟨a, ha, hxa⟩
      · exact hbound x hmem
      · subst hxa
        exact hbound a (List.mem_of_find?_eq_some ha)
    · have hmap : List.map Package.id (updateFirst (matchesCfg cfg)
          (fun q => { q with price_rub := cfg.price_rub, is_active := true })
          st.1.packages) = List.map Package.id st.1.packages := by
        apply map_updateFirst
        intro a
        rfl
      dsimp only
      rw [hmap]
      exact hnodup
  | none =>
    simp only [syncStep, hfind]
    constructor
    · intro x hx
      rcases List.mem_append.mp hx with hmem | hmem
      · exact Nat.lt_succ_of_lt (hbound x hmem)
      · rw [List.mem_singleton.mp hmem]
        exact Nat.lt_succ_self _
    · rw [List.map_append]
      refine List.Nodup.append hnodup (List.nodup_singleton _) ?_
      intro a ha hb
      rcases List.mem_map.mp ha with ⟨x, hx, rfl⟩
      have := hbound x hx
      simp at hb
      omega

theorem syncFold_WF (cfgs : List PackageConfig) :
    ∀ st : DB × List Nat, packagesWF st.1 → packagesWF (cfgs.foldl syncStep st).1 := by
  induction cfgs with
  | nil => exact fun st h => h
  | cons c cs ih => exact fun st h => ih _ (syncStep_WF st c h)

theorem syncStep_ids_matched (cfgsAll : List PackageConfig) (st : DB × List Nat)
    (cfg : PackageConfig) (hcfg : cfg ∈ cfgsAll) (hWF : packagesWF st.1)
    (H : ∀ q ∈ st.1.packages, q.id ∈ st.2 → ∃ c ∈ cfgsAll, matchesCfg c q = true) :
    ∀ q ∈ (syncStep st cfg).1.packages, q.id ∈ (syncStep st cfg).2 →
      ∃ c ∈ cfgsAll, matchesCfg c q = true := by
  obtain ⟨hbound, hnodup⟩ := hWF
  cases hfind : st.1.packages.find? (matchesCfg cfg) with
  | some p =>
    intro q hq hid
    simp only [syncStep, hfind] at hq hid
    rcases mem_updateFirst _ _ _ q hq with hmem | ⟨a, ha, hqa⟩
    · rcases List.mem_append.mp hid with hid' | hid'
      · exact H q hmem hid'
      · have hpeq : q = p := by
          refine List.inj_on_of_nodup_map hnodup hmem
            (List.mem_of_find?_eq_some hfind) ?_
          exact List.mem_singleton.mp hid'
        subst hpeq
        exact ⟨cfg, hcfg, List.find?_some hfind⟩
    · subst hqa
      exact ⟨cfg, hcfg, by have := List.find?_some ha; exact this⟩
  | none =>
    intro q hq hid
    simp only [syncStep, hfind] at hq hid
    rcases List.mem_append.mp hq with hmem | hmem
    · rcases List.mem_append.mp hid with hid' | hid'
      · exact H q hmem hid'
      · have := hbound q hmem
        rw [List.mem_singleton.mp hid'] at this
        omega
    · rw [List.mem_singleton.mp hmem]
      exact ⟨cfg, hcfg, by simp [matchesCfg]⟩

theorem syncFold_ids_matched (cfgsAll cfgs : List PackageConfig) :
    ∀ st : DB × List Nat, (∀ c ∈ cfgs, c ∈ cfgsAll) → packagesWF st.1 →
    (∀ q ∈ st.1.packages, q.id ∈ st.2 → ∃ c ∈ cfgsAll, matchesCfg c q = true) →
    ∀ q ∈ (cfgs.foldl syncStep st).1.packages, q.id ∈ (cfgs.foldl syncStep st).2 →
      ∃ c ∈ cfgsAll, matchesCfg c q = true := by
  induction cfgs with
  | nil => exact fun st _ _ H => H
  | cons c cs ih =>
    intro st hsub hWF H
    exact ih _ (fun x hx => hsub x (List.mem_cons_of_mem _ hx)) (syncStep_WF st c hWF)
      (syncStep_ids_matched cfgsAll st c (hsub c (List.mem_cons_self _ _)) hWF H)

theorem syncStep_active_pres (st : DB × List Nat) (cfg c : PackageConfig)
    (h : ∃ q ∈ st.1.packages, matchesCfg c q = true ∧ q.is_active = true ∧ q.id ∈ st.2) :
    ∃ q ∈ (syncStep st cfg).1.packages,
      matchesCfg c q = true ∧ q.is_active = true ∧ q.id ∈ (syncStep st cfg).2 := by
  obtain ⟨q, hq, hm, hact, hid⟩ := h
  cases hfind : st.1.packages.find? (matchesCfg cfg) with
  | some p =>
    simp only [syncStep, hfind]
    rcases mem_updateFirst_of_mem (matchesCfg cfg)
      (fun r => { r with price_rub := cfg.price_rub, is_active := true })
      st.1.packages q hq with hq' | ⟨_, hq'⟩
    · exact ⟨q, hq', hm, hact, List.mem_append_left _ hid⟩
    · exact ⟨_, hq', hm, rfl, List.mem_append_left _ hid⟩
  | none =>
    simp only [syncStep, hfind]
    exact ⟨q, List.mem_append_left _ hq, hm, hact, List.mem_append_left _ hid⟩

theorem syncFold_active_pres (cfgs : List PackageConfig) (c : PackageConfig) :
    ∀ st : DB × List Nat,
    (∃ q ∈ st.1.packages, matchesCfg c q = true ∧ q.is_active = true ∧ q.id ∈ st.2) →
    ∃ q ∈ (cfgs.foldl syncStep st).1.packages,
      matchesCfg c q = true ∧ q.is_active = true ∧ q.id ∈ (cfgs.foldl syncStep st).2 := by
  induction cfgs with
  | nil => exact fun st h => h
  | cons c0 cs ih => exact fun st h => ih _ (syncStep_active_pres st c0 c h)

theorem syncStep_active_self (st : DB × List Nat) (c : PackageConfig) :
    ∃ q ∈ (syncStep st c).1.packages,
      matchesCfg c q = true ∧ q.is_active = true ∧ q.id ∈ (syncStep st c).2 := by
  cases hfind : st.1.packages.find? (matchesCfg c) with
  | some p =>
    simp only [syncStep, hfind]
    refine ⟨_, fa_mem_updateFirst _ _ _ p hfind,
      by have := List.find?_some hfind; exact this, rfl, ?_⟩
    exact List.mem_append_right _ (List.mem_singleton_self _)
  | none =>
    simp only [syncStep, hfind]
    refine ⟨_, List.mem_append_right _ (List.mem_singleton_self _), ?_, rfl, ?_⟩
    · simp [matchesCfg]
    · exact List.mem_append_right _ (List.mem_singleton_self _)

theorem syncFold_active (cfgs : List PackageConfig) :
    ∀ (st : DB × List Nat) (c : PackageConfig), c ∈ cfgs →
    ∃ q ∈ (cfgs.foldl syncStep st).1.packages,
      matchesCfg c q = true ∧ q.is_active = true ∧ q.id ∈ (cfgs.foldl syncStep st).2 := by
  induction cfgs with
  | nil => intro st c hc; simp at hc
  | cons c0 cs ih =>
    intro st c hc
    rcases List.mem_cons.mp hc with rfl | hc'
    · exact syncFold_active_pres cs c (syncStep st c) (syncStep_active_self st c)
    · exact ih (syncStep st c0) c hc'

theorem syncStep_presence (st : DB × List Nat) (cfg : PackageConfig) (p : Package)
    (h : ∃ q ∈ st.1.packages,
      q.id = p.id ∧ q.name = p.name ∧ q.images_count = p.images_count) :
    ∃ q ∈ (syncStep st cfg).1.packages,
      q.id = p.id ∧ q.name = p.name ∧ q.images_count = p.images_count := by
  obtain ⟨q, hq, h1, h2, h3⟩ := h
  cases hfind : st.1.packages.find? (matchesCfg cfg) with
  | some r =>
    simp only [syncStep, hfind]
    rcases mem_updateFirst_of_mem (matchesCfg cfg)
      (fun x => { x with price_rub := cfg.price_rub, is_active := true })
      st.1.packages q hq with hq' | ⟨_, hq'⟩
    · exact ⟨q, hq', h1, h2, h3⟩
    · exact ⟨_, hq', h1, h2, h3⟩
  | none =>
    simp only [syncStep, hfind]
    exact ⟨q, List.mem_append_left _ hq, h1, h2, h3⟩

theorem syncFold_presence (cfgs : List PackageConfig) (p : Package) :
    ∀ st : DB × List Nat,
    (∃ q ∈ st.1.packages,
      q.id = p.id ∧ q.name = p.name ∧ q.images_count = p.images_count) →
    ∃ q ∈ (cfgs.foldl syncStep st).1.packages,
      q.id = p.id ∧ q.name = p.name ∧ q.images_count = p.images_count := by
  induction cfgs with
  | nil => exact fun st h => h
  | cons c cs ih => exact fun st h => ih _ (syncStep_presence st c p h)

/-- C9: catalog sync never deletes: every pre-existing package survives
with its id, name and credit count; every package matching no entry of
the supplied config ends inactive; every config entry ends with a
matching active package; and concretely, syncing `[A, B]` and then
`[B', C]` (B with a new price) leaves A present but inactive, B active
with the updated price, and C newly created active. -/
theorem C9_catalog_sync (db : DB) (cfgs : List PackageConfig) (hWF : packagesWF db) :
    (∀ p ∈ db.packages, ∃ q ∈ (sync_packages_from_config db cfgs).packages,
        q.id = p.id ∧ q.name = p.name ∧ q.images_count = p.images_count) ∧
    (∀ q ∈ (sync_packages_from_config db cfgs).packages,
        (∀ c ∈ cfgs, matchesCfg c q = false) → q.is_active = false) ∧
    (∀ c ∈ cfgs, ∃ q ∈ (sync_packages_from_config db cfgs).packages,
        matchesCfg c q = true ∧ q.is_active = true) ∧
    (sync_packages_from_config (sync_packages_from_config dbP0 [cfgA, cfgB])
        [cfgB2, cfgC]).packages =
      [⟨1, "A", 50, 990, false⟩, ⟨2, "B", 20, 450, true⟩, ⟨3, "C", 100, 1990, true⟩] := by
  have hpack : (sync_packages_from_config db cfgs).packages =
      (cfgs.foldl syncStep (db, [])).1.packages.map
        (fun p => if (cfgs.foldl syncStep (db, [])).2.contains p.id then p
                  else { p with is_active := false }) := rfl
  refine ⟨fun p hp => ?_, fun q hq hfalse => ?_, fun c hc => ?_, by decide⟩
  · obtain ⟨q0, hq0, h1, h2, h3⟩ :=
      syncFold_presence cfgs p (db, []) ⟨p, hp, rfl, rfl, rfl⟩
    rw [hpack]
    refine ⟨_, List.mem_map_of_mem _ hq0, ?_⟩
    by_cases hcont : (cfgs.foldl syncStep (db, [])).2.contains q0.id = true
    · rw [if_pos hcont]
      exact ⟨h1, h2, h3⟩
    · rw [if_neg hcont]
      exact ⟨h1, h2, h3⟩
  · rw [hpack] at hq
    rcases List.mem_map.mp hq with ⟨q0, hq0, hqeq⟩
    by_cases hcont : (cfgs.foldl syncStep (db, [])).2.contains q0.id = true
    · rw [if_pos hcont] at hqeq
      subst hqeq
      obtain ⟨c, hcmem, hcm⟩ := syncFold_ids_matched cfgs cfgs (db, [])
        (fun _ h => h) hWF (fun x _ hid => absurd hid (List.not_mem_nil _))
        q0 hq0 (List.mem_of_elem_eq_true hcont)
      rw [hfalse c hcmem] at hcm
      exact absurd hcm Bool.false_ne_true
    · rw [if_neg hcont] at hqeq
      subst hqeq
      rfl
  · obtain ⟨q0, hq0, hm, hact, hid⟩ := syncFold_active cfgs (db, []) c hc
    rw [hpack]
    refine ⟨q0, ?_, hm, hact⟩
    refine List.mem_map.mpr ⟨q0, hq0, ?_⟩
    rw [if_pos (List.elem_eq_true_of_mem hid)]

theorem C9_witness :
    (∃ q ∈ (sync_packages_from_config dbW [cfgA]).packages,
      q.id = pkg50.id ∧ q.name = pkg50.name ∧ q.images_count = pkg50.images_count) ∧
    (∃ q ∈ (sync_packages_from_config dbW [cfgA]).packages,
      matchesCfg cfgA q = true ∧ q.is_active = true) ∧
    (∀ q ∈ (sync_packages_from_config dbW [cfgA]).packages,
      (∀ c ∈ [cfgA], matchesCfg c q = false) → q.is_active = false) := by
  have h := C9_catalog_sync dbW [cfgA] (by unfold packagesWF; decide)
  exact ⟨h.1 pkg50 (by decide), h.2.2.1 cfgA (by decide), h.2.1⟩

end PortraitBot
